import Mathlib

/-!
Verification of the real-time audience-signal fusion and feedback engine:
a shallow embedding of the `EmotionDetectionSystem`, `AudienceMetrics` and
`PerformanceFeedbackSystem` classes, with theorems checking the specified
properties of classification thresholding, sliding-window pruning,
engagement, dominance, trend, and the pacing decision.

Numbers are modelled as rationals (every constant appearing in the code --
0.5, 0.7, 0.1, 1.5, 1.3, 1.2 -- is exactly representable in binary floating
point or, for 5 * 0.1, rounds to exactly 0.5, so the rational model agrees
with the source's arithmetic on these comparisons); timestamps are integers
(millisecond clock readings).
-/

/-- The five emotion classes, in the fixed order of the model's output. -/
inductive EmotionType where
  | LAUGHTER
  | APPLAUSE
  | SILENCE
  | DISAPPROVAL
  | EXCITEMENT
deriving DecidableEq, Repr

/-- The channel an emotion event came from. -/
inductive EmotionSource where
  | audio
  | video
  | chat
deriving DecidableEq, Repr

/-- One emotion event, as produced by a classification adapter. -/
structure EmotionData where
  type : EmotionType
  intensity : ℚ
  timestamp : ℤ
  source : EmotionSource
  confidence : ℚ
deriving DecidableEq, Repr

/-- The trend direction of the metrics snapshot. -/
inductive Trend where
  | rising
  | falling
  | stable
deriving DecidableEq, Repr

/-- A JavaScript `Map` preserves insertion order; an association list in
insertion order models it. `Map.get` returns the value at the key, or
`undefined` (here `none`) when absent. -/
def mapGet : List (EmotionType × ℚ) → EmotionType → Option ℚ
  | [], _ => none
  | p :: rest, t => if p.1 = t then some p.2 else mapGet rest t

/-- `Map.set` overwrites an existing key in place (keeping its position in
iteration order) and appends a new key at the end. -/
def mapSet : List (EmotionType × ℚ) → EmotionType → ℚ → List (EmotionType × ℚ)
  | [], t, v => [(t, v)]
  | p :: rest, t, v => if p.1 = t then (t, v) :: rest else p :: mapSet rest t v

/-- The metrics snapshot held by `AudienceMetrics.metrics`. -/
structure Metrics where
  overallEngagement : ℚ
  dominantEmotion : EmotionType
  emotionIntensities : List (EmotionType × ℚ)
  recentTrend : Trend
  audienceSize : ℕ
deriving DecidableEq, Repr

/-- `private readonly TREND_WINDOW = 10; // seconds`. -/
def TREND_WINDOW : ℕ := 10

/-- The state of one `AudienceMetrics` instance: the snapshot and the
sliding window `recentEmotions`. -/
structure AudienceMetrics where
  metrics : Metrics
  recentEmotions : List EmotionData
deriving DecidableEq, Repr

/-- The `AudienceMetrics` constructor: engagement 0, dominant SILENCE,
empty intensity map, stable trend, audience size 0, empty window. -/
def initAudienceMetrics : AudienceMetrics :=
  { metrics :=
      { overallEngagement := 0
        dominantEmotion := .SILENCE
        emotionIntensities := []
        recentTrend := .stable
        audienceSize := 0 }
    recentEmotions := [] }

/-- `addToRecentEmotions`: append the new events to the window, then keep
only events with `now - e.timestamp < TREND_WINDOW * 1000`. -/
def addToRecentEmotions (s : AudienceMetrics) (emotions : List EmotionData)
    (now : ℤ) : List EmotionData :=
  (s.recentEmotions ++ emotions).filter
    (fun e => now - e.timestamp < (TREND_WINDOW : ℤ) * 1000)

/-- `calculateEngagement`: 0 on an empty window, otherwise the mean of the
per-event weighted scores.  The source's `switch` has a `default` branch
returning the bare intensity, unreachable because `EmotionType` has exactly
the five listed cases. -/
def calculateEngagement (recentEmotions : List EmotionData) : ℚ :=
  if recentEmotions.length = 0 then 0
  else
    let engagementScores := recentEmotions.map (fun emotion =>
      match emotion.type with
      | .LAUGHTER => emotion.intensity * 1.5
      | .APPLAUSE => emotion.intensity * 1.3
      | .EXCITEMENT => emotion.intensity * 1.2
      | .SILENCE => emotion.intensity * 0.5
      | .DISAPPROVAL => emotion.intensity * 0.7)
    engagementScores.sum / engagementScores.length

/-- The accumulation loop of `calculateDominantEmotion`:
`emotionCounts.get(e.type) || 0` plus the intensity, written back with
`set` (the `|| 0` branch coincides with `getD 0` since a stored 0 is
falsy and replaced by 0). -/
def emotionCountsOf (recentEmotions : List EmotionData) :
    List (EmotionType × ℚ) :=
  recentEmotions.foldl
    (fun m e => mapSet m e.type ((mapGet m e.type).getD 0 + e.intensity)) []

/-- The selection loop of `calculateDominantEmotion`: mutable `maxCount`
(initially 0) and the current `dominantEmotion` (initially the previous
snapshot's value), updated at each map entry whose count is strictly
greater than `maxCount`, in the map's iteration order. -/
def dominantAux : List (EmotionType × ℚ) → ℚ → EmotionType → EmotionType
  | [], _, cur => cur
  | p :: rest, mx, cur =>
      if mx < p.2 then dominantAux rest p.2 p.1 else dominantAux rest mx cur

/-- `calculateDominantEmotion`: returns the new dominant emotion and the
accumulated count map (stored into `metrics.emotionIntensities`). -/
def calculateDominantEmotion (recentEmotions : List EmotionData)
    (prevDominant : EmotionType) : EmotionType × List (EmotionType × ℚ) :=
  let emotionCounts := emotionCountsOf recentEmotions
  (dominantAux emotionCounts 0 prevDominant, emotionCounts)

/-- `calculateTrend`: split the window at `floor(length / 2)`, sum raw
intensities of each half, and compare the difference against
`floor(TREND_WINDOW / 2) * 0.1` (in floating point `5 * 0.1` is exactly
`0.5`, so the rational value coincides). -/
def calculateTrend (recentEmotions : List EmotionData) : Trend :=
  let windowSize : ℕ := TREND_WINDOW / 2
  let midpoint : ℕ := recentEmotions.length / 2
  let firstHalf := ((recentEmotions.take midpoint).map (·.intensity)).sum
  let secondHalf := ((recentEmotions.drop midpoint).map (·.intensity)).sum
  let difference := secondHalf - firstHalf
  if (windowSize : ℚ) * 0.1 < difference then .rising
  else if difference < -((windowSize : ℚ) * 0.1) then .falling
  else .stable

/-- `updateMetrics`: prune/extend the window, then recompute engagement,
dominance (with its intensity map) and trend on the pruned window. -/
def updateMetrics (s : AudienceMetrics) (newEmotions : List EmotionData)
    (now : ℤ) : AudienceMetrics :=
  let pruned := addToRecentEmotions s newEmotions now
  let dom := calculateDominantEmotion pruned s.metrics.dominantEmotion
  { metrics :=
      { overallEngagement := calculateEngagement pruned
        dominantEmotion := dom.1
        emotionIntensities := dom.2
        recentTrend := calculateTrend pruned
        audienceSize := s.metrics.audienceSize }
    recentEmotions := pruned }

/-- An `InferenceError`: a single classification call failed. -/
inductive InferenceError where
  | mk (message : String)
deriving DecidableEq, Repr

/-- `currentPerformance`: performer id, start time, full event history. -/
structure CurrentPerformance where
  performerId : String
  startTime : ℤ
  emotions : List EmotionData
deriving DecidableEq, Repr

/-- The `PerformanceFeedbackSystem` state: its single `AudienceMetrics`
instance (created once in the constructor) and the optional current
performance. -/
structure PerformanceFeedbackSystem where
  audienceMetrics : AudienceMetrics
  currentPerformance : Option CurrentPerformance
deriving DecidableEq, Repr

/-- The `PerformanceFeedbackSystem` constructor. -/
def mkPerformanceFeedbackSystem : PerformanceFeedbackSystem :=
  { audienceMetrics := initAudienceMetrics
    currentPerformance := none }

/-- `startPerformanceTracking`: sets `currentPerformance` to a fresh record;
it does not touch `audienceMetrics`. -/
def startPerformanceTracking (s : PerformanceFeedbackSystem)
    (performerId : String) (now : ℤ) : PerformanceFeedbackSystem :=
  { s with
    currentPerformance := some
      { performerId := performerId, startTime := now, emotions := [] } }

/-- `processFrame`.  The three classification results stand for the three
concurrently awaited promises; `Except.error` models a rejected promise.
The returned pair is the post-call object state and the call's outcome
(`some e` = the call rejected with an `InferenceError`).  On an early
return (no current performance) and on a rejected `Promise.all` the object
is unchanged, because the two mutation lines (`emotions.push`,
`updateMetrics`) run only after a successful join. -/
def processFrame (s : PerformanceFeedbackSystem)
    (audioRes videoRes chatRes : Except InferenceError (List EmotionData))
    (now : ℤ) : PerformanceFeedbackSystem × Option InferenceError :=
  match s.currentPerformance with
  | none => (s, none)
  | some cp =>
    match audioRes, videoRes, chatRes with
    | .ok audioEmotions, .ok videoEmotions, .ok chatEmotions =>
        let allEmotions := audioEmotions ++ videoEmotions ++ chatEmotions
        ({ audienceMetrics := updateMetrics s.audienceMetrics allEmotions now
           currentPerformance := some { cp with emotions := cp.emotions ++ allEmotions } },
         none)
    | .error e, _, _ => (s, some e)
    | _, .error e, _ => (s, some e)
    | _, _, .error e => (s, some e)

/-- `getRealtimeMetrics`: the current snapshot. -/
def getRealtimeMetrics (s : PerformanceFeedbackSystem) : Metrics :=
  s.audienceMetrics.metrics

/-- `shouldAdjustTiming`: dominant emotion is LAUGHTER and the LAUGHTER
entry of `emotionIntensities` exceeds 0.7.  When the entry is absent the
source compares `undefined > 0.7`, which is false in JavaScript; `none`
therefore yields `false`. -/
def shouldAdjustTiming (s : PerformanceFeedbackSystem) : Bool :=
  let metrics := s.audienceMetrics.metrics
  decide (metrics.dominantEmotion = .LAUGHTER) &&
    (match mapGet metrics.emotionIntensities .LAUGHTER with
     | some v => decide ((0.7 : ℚ) < v)
     | none => false)

/-- The list of emotion classes, in the model's fixed output order. -/
def emotionMap : List EmotionType :=
  [.LAUGHTER, .APPLAUSE, .SILENCE, .DISAPPROVAL, .EXCITEMENT]

/-- `mapIndexToEmotion`: array indexing; `none` models the `undefined` a
JavaScript array yields past its end (unreachable for the five-class
model's outputs). -/
def mapIndexToEmotion (index : ℕ) : Option EmotionType :=
  emotionMap.get? index

/-- `processEmotionPredictions` on the single prediction row: one event per
class whose confidence exceeds 0.5, with intensity and confidence both
equal to that probability, the calling channel as source and the call time
as timestamp.  (For an index past the five-entry map -- impossible for the
five-class model -- the embedding emits nothing.) -/
def processEmotionPredictions (predictionRow : List ℚ)
    (source : EmotionSource) (now : ℤ) : List EmotionData :=
  predictionRow.enum.filterMap (fun p =>
    if (0.5 : ℚ) < p.2 then
      (mapIndexToEmotion p.1).map (fun t =>
        { type := t, intensity := p.2, timestamp := now,
          source := source, confidence := p.2 })
    else none)

/-- Spec-side type weights: LAUGHTER 1.5, APPLAUSE 1.3, EXCITEMENT 1.2,
SILENCE 0.5, DISAPPROVAL 0.7. -/
def specWeight : EmotionType → ℚ
  | .LAUGHTER => 1.5
  | .APPLAUSE => 1.3
  | .EXCITEMENT => 1.2
  | .SILENCE => 0.5
  | .DISAPPROVAL => 0.7

/-- Spec-side engagement: the arithmetic mean over the window of intensity
times type weight, 0 on an empty window. -/
def engagementSpec (w : List EmotionData) : ℚ :=
  if w = [] then 0
  else ((w.map (fun e => e.intensity * specWeight e.type)).sum) / w.length

/-- Spec-side trend: split at the index midpoint (floor of length / 2), sum
raw intensities of each half; RISING when the second-half sum exceeds the
first-half sum by more than 0.5, FALLING when it falls short by more than
0.5, STABLE otherwise. -/
def trendSpec (w : List EmotionData) : Trend :=
  let mid := w.length / 2
  let difference :=
    ((w.drop mid).map (·.intensity)).sum - ((w.take mid).map (·.intensity)).sum
  if (0.5 : ℚ) < difference then .rising
  else if difference < -(0.5 : ℚ) then .falling
  else .stable

/-- The sum of the raw (unweighted) intensities of the events of one type
in a window. -/
def rawIntensitySum (t : EmotionType) (w : List EmotionData) : ℚ :=
  ((w.filter (fun e => e.type = t)).map (·.intensity)).sum

/-! ## Helper lemmas -/

theorem engagement_map_eq (w : List EmotionData) :
    w.map (fun emotion =>
      match emotion.type with
      | .LAUGHTER => emotion.intensity * 1.5
      | .APPLAUSE => emotion.intensity * 1.3
      | .EXCITEMENT => emotion.intensity * 1.2
      | .SILENCE => emotion.intensity * 0.5
      | .DISAPPROVAL => emotion.intensity * 0.7)
      = w.map (fun e => e.intensity * specWeight e.type) :=
  List.map_congr_left fun e _ => by
    rcases e with ⟨t, i, ts, src, c⟩
    cases t <;> rfl

theorem calculateEngagement_eq_spec (w : List EmotionData) :
    calculateEngagement w = engagementSpec w := by
  simp only [calculateEngagement, engagementSpec, engagement_map_eq,
    List.length_map]
  rcases eq_or_ne w [] with rfl | h
  · simp
  · rw [if_neg (by simpa [List.length_eq_zero] using h), if_neg h]

theorem calculateTrend_eq_spec (w : List EmotionData) :
    calculateTrend w = trendSpec w := by
  simp only [calculateTrend, trendSpec, TREND_WINDOW]
  norm_num

/-! ## Claim theorems -/

/-- C1: for every state of the feedback system, `shouldAdjustTiming`
returns true if and only if the snapshot's dominant emotion is LAUGHTER and
the accumulated raw LAUGHTER intensity recorded in `emotionIntensities`
exceeds 0.7; in every other state, including the initial one in which no
events have ever been processed, it returns false. -/
theorem shouldAdjustTiming_iff_laughter :
    (∀ s : PerformanceFeedbackSystem,
      shouldAdjustTiming s = true ↔
        (getRealtimeMetrics s).dominantEmotion = .LAUGHTER ∧
          ∃ v, mapGet (getRealtimeMetrics s).emotionIntensities .LAUGHTER = some v ∧
            (0.7 : ℚ) < v) ∧
    shouldAdjustTiming mkPerformanceFeedbackSystem = false := by
  refine ⟨fun s => ?_, by decide⟩
  simp only [shouldAdjustTiming, getRealtimeMetrics]
  cases h : mapGet s.audienceMetrics.metrics.emotionIntensities .LAUGHTER with
  | none => simp [h]
  | some v => simp [h]

/-- C3: after any aggregator update at time `now`, an event is in the
retained window exactly when it was an old-window or new event and its age
`now - timestamp` is below 10000 ms; every older event is pruned. -/
theorem window_pruned_to_trend_window (s : AudienceMetrics)
    (new : List EmotionData) (now : ℤ) (e : EmotionData) :
    e ∈ (updateMetrics s new now).recentEmotions ↔
      e ∈ s.recentEmotions ++ new ∧ now - e.timestamp < 10000 := by
  simp only [updateMetrics, addToRecentEmotions, List.mem_filter,
    decide_eq_true_eq, TREND_WINDOW]
  norm_num

/-- C4: after any aggregator update, `overallEngagement` is the arithmetic
mean over the pruned window of intensity times the type weight (LAUGHTER
1.5, APPLAUSE 1.3, EXCITEMENT 1.2, SILENCE 0.5, DISAPPROVAL 0.7), and 0
when the window is empty. -/
theorem engagement_is_weighted_mean (s : AudienceMetrics)
    (new : List EmotionData) (now : ℤ) :
    (updateMetrics s new now).metrics.overallEngagement =
      engagementSpec (updateMetrics s new now).recentEmotions := by
  simp only [updateMetrics]
  exact calculateEngagement_eq_spec _

/-- C6: after any aggregator update, the trend is computed by splitting the
window at the floor of half its length, summing raw intensities of the two
halves and comparing `secondHalfSum - firstHalfSum` against 0.5: RISING
above 0.5, FALLING below -0.5, STABLE otherwise. -/
theorem trend_is_midpoint_split (s : AudienceMetrics)
    (new : List EmotionData) (now : ℤ) :
    (updateMetrics s new now).metrics.recentTrend =
      trendSpec (updateMetrics s new now).recentEmotions := by
  simp only [updateMetrics]
  exact calculateTrend_eq_spec _

/-- C10: a `processFrame` call with no current performance returns silently
without error, leaves the whole system state (snapshot, window, history)
unchanged, and its result does not depend on the three classification
results at all, since the adapters are never invoked. -/
theorem processFrame_no_performance (s : PerformanceFeedbackSystem)
    (audioRes videoRes chatRes : Except InferenceError (List EmotionData))
    (now : ℤ) (h : s.currentPerformance = none) :
    processFrame s audioRes videoRes chatRes now = (s, none) := by
  simp [processFrame, h]

theorem processFrame_no_performance_witness :
    processFrame mkPerformanceFeedbackSystem
        (Except.ok []) (Except.error (.mk "video down")) (Except.ok []) 3 =
      (mkPerformanceFeedbackSystem, none) :=
  processFrame_no_performance _ _ _ _ _ rfl

/-- C2: when a performance is being tracked and at least one of the three
classification results is an error, the whole `processFrame` call fails
with an `InferenceError` and the returned system state is exactly the
state before the call: no event of the other channels enters the window or
the history, and the metrics snapshot is unchanged. -/
theorem processFrame_fail_fast (s : PerformanceFeedbackSystem)
    (audioRes videoRes chatRes : Except InferenceError (List EmotionData))
    (now : ℤ) (hcp : s.currentPerformance ≠ none)
    (herr : ∃ e, audioRes = .error e ∨ videoRes = .error e ∨ chatRes = .error e) :
    ∃ e, processFrame s audioRes videoRes chatRes now = (s, some e) := by
  obtain ⟨cp, hcp2⟩ : ∃ cp, s.currentPerformance = some cp := by
    cases h : s.currentPerformance with
    | none => exact absurd h hcp
    | some cp => exact ⟨cp, rfl⟩
  rcases audioRes with ea | la
  · exact ⟨ea, by simp [processFrame, hcp2]⟩
  rcases videoRes with eb | lb
  · exact ⟨eb, by simp [processFrame, hcp2]⟩
  rcases chatRes with ec | lc
  · exact ⟨ec, by simp [processFrame, hcp2]⟩
  obtain ⟨e, he⟩ := herr
  rcases he with he | he | he <;> simp at he

theorem processFrame_fail_fast_witness :
    ∃ e, processFrame (startPerformanceTracking mkPerformanceFeedbackSystem "a" 0)
        (Except.error (.mk "audio down")) (Except.ok []) (Except.ok []) 0 =
      (startPerformanceTracking mkPerformanceFeedbackSystem "a" 0, some e) :=
  processFrame_fail_fast _ _ _ _ _ (by decide) ⟨.mk "audio down", Or.inl rfl⟩

/-- A system that tracked performance "a", processed one high-confidence
LAUGHTER frame, and then started tracking performance "b". -/
def secondTrackingRun : PerformanceFeedbackSystem :=
  startPerformanceTracking
    (processFrame (startPerformanceTracking mkPerformanceFeedbackSystem "a" 0)
      (Except.ok [{ type := .LAUGHTER, intensity := 0.9, timestamp := 0,
                    source := .audio, confidence := 0.9 }])
      (Except.ok []) (Except.ok []) 0).1
    "b" 1000

/-- C8 counterexample: starting to track a new performance does not reset
the shared aggregator, so the freshly started session "b" does not show
`overallEngagement == 0` and `dominantEmotion == SILENCE`: the LAUGHTER
events of the previously tracked performance still dominate its snapshot. -/
theorem startTracking_not_fresh_cex :
    ¬ ((getRealtimeMetrics secondTrackingRun).overallEngagement = 0 ∧
       (getRealtimeMetrics secondTrackingRun).dominantEmotion = .SILENCE) := by
  have h : getRealtimeMetrics secondTrackingRun =
      { overallEngagement := 27/20
        dominantEmotion := .LAUGHTER
        emotionIntensities := [(.LAUGHTER, 9/10)]
        recentTrend := .rising
        audienceSize := 0 } := by
    norm_num [secondTrackingRun, getRealtimeMetrics, startPerformanceTracking,
      processFrame, mkPerformanceFeedbackSystem, initAudienceMetrics,
      updateMetrics, addToRecentEmotions, calculateEngagement,
      calculateDominantEmotion, emotionCountsOf, dominantAux, mapSet, mapGet,
      calculateTrend, TREND_WINDOW, List.filter]
  rw [h]
  norm_num

/-- C8 (amended): `startPerformanceTracking` installs a fresh
`currentPerformance` record (given performer, given start time, empty
history) but reuses the single shared aggregator unchanged; consequently
only on a freshly constructed system does the started session read
`overallEngagement = 0`, `dominantEmotion = SILENCE`, `trend = STABLE`,
while metrics accumulated for a previously tracked performance persist
across the call. -/
theorem startTracking_keeps_shared_aggregator :
    (∀ (pid : String) (now : ℤ),
      getRealtimeMetrics (startPerformanceTracking mkPerformanceFeedbackSystem pid now) =
        { overallEngagement := 0
          dominantEmotion := .SILENCE
          emotionIntensities := []
          recentTrend := .stable
          audienceSize := 0 }) ∧
    (∀ (s : PerformanceFeedbackSystem) (pid : String) (now : ℤ),
      (startPerformanceTracking s pid now).audienceMetrics = s.audienceMetrics ∧
        (startPerformanceTracking s pid now).currentPerformance =
          some { performerId := pid, startTime := now, emotions := [] }) :=
  ⟨fun _ _ => rfl, fun _ _ _ => ⟨rfl, rfl⟩⟩

/-- C9: replacing a SILENCE event of positive intensity by an otherwise
identical LAUGHTER event, all other window events unchanged, strictly
increases the recomputed engagement. -/
theorem silence_to_laughter_increases_engagement
    (pre post : List EmotionData) (e : EmotionData)
    (htype : e.type = .SILENCE) (hpos : 0 < e.intensity) :
    calculateEngagement (pre ++ e :: post) <
      calculateEngagement (pre ++ { e with type := .LAUGHTER } :: post) := by
  rcases e with ⟨t, i, ts, src, cf⟩
  simp only at htype hpos
  subst htype
  rw [calculateEngagement_eq_spec, calculateEngagement_eq_spec]
  simp only [engagementSpec]
  rw [if_neg (by simp), if_neg (by simp)]
  simp only [List.map_append, List.sum_append, List.map_cons, List.sum_cons,
    List.length_append, List.length_cons]
  have hn : (0 : ℚ) < (pre.length : ℚ) + ((post.length : ℚ) + 1) := by positivity
  rw [div_lt_div_iff_of_pos_right]
  · have hw : i * specWeight .SILENCE < i * specWeight .LAUGHTER := by
      simp only [specWeight]
      nlinarith
    simp only at hw ⊢
    linarith
  · push_cast
    linarith

theorem silence_to_laughter_witness :
    calculateEngagement
        [{ type := .SILENCE, intensity := 0.6, timestamp := 0,
           source := .chat, confidence := 0.6 }] <
      calculateEngagement
        [{ type := .LAUGHTER, intensity := 0.6, timestamp := 0,
           source := .chat, confidence := 0.6 }] :=
  silence_to_laughter_increases_engagement [] []
    { type := .SILENCE, intensity := 0.6, timestamp := 0,
      source := .chat, confidence := 0.6 }
    rfl (by norm_num)

/-- C7: on a five-class probability vector, classification emits exactly
one event per class whose probability exceeds 0.5 (in class order), with
intensity and confidence equal to that probability, the calling channel as
source and the call time as timestamp; and no classification output ever
contains an event with confidence at most 0.5. -/
theorem classification_threshold (p0 p1 p2 p3 p4 : ℚ)
    (src : EmotionSource) (now : ℤ) :
    processEmotionPredictions [p0, p1, p2, p3, p4] src now =
      (if (0.5 : ℚ) < p0 then
        [{ type := .LAUGHTER, intensity := p0, timestamp := now,
           source := src, confidence := p0 }] else []) ++
      (if (0.5 : ℚ) < p1 then
        [{ type := .APPLAUSE, intensity := p1, timestamp := now,
           source := src, confidence := p1 }] else []) ++
      (if (0.5 : ℚ) < p2 then
        [{ type := .SILENCE, intensity := p2, timestamp := now,
           source := src, confidence := p2 }] else []) ++
      (if (0.5 : ℚ) < p3 then
        [{ type := .DISAPPROVAL, intensity := p3, timestamp := now,
           source := src, confidence := p3 }] else []) ++
      (if (0.5 : ℚ) < p4 then
        [{ type := .EXCITEMENT, intensity := p4, timestamp := now,
           source := src, confidence := p4 }] else []) ∧
    ∀ (probs : List ℚ) (e : EmotionData),
      e ∈ processEmotionPredictions probs src now →
        ¬ (e.confidence ≤ (0.5 : ℚ)) := by
  constructor
  · by_cases h0 : (0.5 : ℚ) < p0 <;> by_cases h1 : (0.5 : ℚ) < p1 <;>
      by_cases h2 : (0.5 : ℚ) < p2 <;> by_cases h3 : (0.5 : ℚ) < p3 <;>
      by_cases h4 : (0.5 : ℚ) < p4 <;>
      simp [processEmotionPredictions, List.enum, List.enumFrom,
        List.filterMap_cons, mapIndexToEmotion, emotionMap, h0, h1, h2, h3, h4]
  · intro probs e he
    rw [not_le]
    simp only [processEmotionPredictions, List.mem_filterMap] at he
    obtain ⟨⟨i, cnf⟩, _, hf⟩ := he
    by_cases hc : (0.5 : ℚ) < cnf
    · rw [if_pos hc] at hf
      obtain ⟨t, _, heq⟩ := Option.map_eq_some'.mp hf
      cases heq
      exact hc
    · rw [if_neg hc] at hf
      exact absurd hf (by simp)

theorem mapGet_mapSet_self (m : List (EmotionType × ℚ)) (t : EmotionType)
    (v : ℚ) : mapGet (mapSet m t v) t = some v := by
  induction m with
  | nil => simp [mapSet, mapGet]
  | cons p rest ih =>
    by_cases h : p.1 = t
    · simp [mapSet, h, mapGet]
    · simp [mapSet, h, mapGet, ih]

theorem mapGet_mapSet_ne (m : List (EmotionType × ℚ)) {t t' : EmotionType}
    (v : ℚ) (hne : t' ≠ t) : mapGet (mapSet m t v) t' = mapGet m t' := by
  induction m with
  | nil => simp [mapSet, mapGet, Ne.symm hne]
  | cons p rest ih =>
    by_cases h : p.1 = t
    · simp [mapSet, h, mapGet, Ne.symm hne, ih]
    · simp [mapSet, h, mapGet, ih]

theorem mem_of_mapGet_eq_some {m : List (EmotionType × ℚ)}
    {t : EmotionType} {v : ℚ} (h : mapGet m t = some v) : (t, v) ∈ m := by
  induction m with
  | nil => simp [mapGet] at h
  | cons p rest ih =>
    rcases p with ⟨pt, pv⟩
    by_cases hp : pt = t
    · subst hp
      rw [mapGet, if_pos rfl] at h
      obtain rfl : pv = v := by injection h
      exact List.mem_cons_self _ _
    · rw [mapGet, if_neg hp] at h
      exact List.mem_cons_of_mem _ (ih h)

theorem rawIntensitySum_cons (t : EmotionType) (e : EmotionData)
    (w : List EmotionData) :
    rawIntensitySum t (e :: w) =
      if e.type = t then e.intensity + rawIntensitySum t w
      else rawIntensitySum t w := by
  by_cases h : e.type = t <;> simp [rawIntensitySum, List.filter_cons, h]

theorem rawIntensitySum_of_not_mem {t : EmotionType} {w : List EmotionData}
    (h : ¬ w.any (fun e => e.type = t)) : rawIntensitySum t w = 0 := by
  have hf : w.filter (fun e => decide (e.type = t)) = [] := by
    rw [List.filter_eq_nil_iff]
    intro a ha
    simp only [List.any_eq_true, decide_eq_true_eq, not_exists, not_and] at h
    simpa using h a ha
  simp [rawIntensitySum, hf]

theorem countsOf_go (w : List EmotionData) :
    ∀ (m : List (EmotionType × ℚ)) (t : EmotionType),
      mapGet (w.foldl
        (fun m e => mapSet m e.type ((mapGet m e.type).getD 0 + e.intensity)) m) t =
      if w.any (fun e => e.type = t) then
        some ((mapGet m t).getD 0 + rawIntensitySum t w)
      else mapGet m t := by
  induction w with
  | nil => intro m t; simp [rawIntensitySum]
  | cons e rest ih =>
    intro m t
    rw [List.foldl_cons, ih]
    by_cases ht : e.type = t
    · subst ht
      rw [mapGet_mapSet_self]
      by_cases hrest : rest.any (fun x => x.type = e.type)
      · simp [hrest, rawIntensitySum_cons, add_assoc]
      · simp [hrest, rawIntensitySum_cons, rawIntensitySum_of_not_mem hrest]
    · rw [mapGet_mapSet_ne _ _ (fun hh => ht hh.symm)]
      simp only [List.any_cons, rawIntensitySum_cons, if_neg ht]
      have : (decide (e.type = t) || rest.any fun x => decide (x.type = t)) =
  rest.any fun x => decide (x.type = t) := by simp [ht]
      rw [this]

theorem countsOf_spec (w : List EmotionData) (t : EmotionType) :
    mapGet (emotionCountsOf w) t =
      if w.any (fun e => e.type = t) then some (rawIntensitySum t w)
      else none := by
  rw [emotionCountsOf, countsOf_go w [] t]
  simp [mapGet]

theorem dominantAux_of_all_le (m : List (EmotionType × ℚ)) (mx : ℚ)
    (cur : EmotionType) (h : ∀ p ∈ m, p.2 ≤ mx) :
    dominantAux m mx cur = cur := by
  induction m generalizing mx cur with
  | nil => rfl
  | cons p rest ih =>
    rw [dominantAux, if_neg (not_lt.mpr (h p (List.mem_cons_self _ _)))]
    exact ih _ _ fun q hq => h q (List.mem_cons_of_mem _ hq)

theorem dominantAux_first_max (m : List (EmotionType × ℚ)) :
    ∀ (mx : ℚ) (cur : EmotionType), (∃ p ∈ m, mx < p.2) →
      ∃ pre v post, m = pre ++ (dominantAux m mx cur, v) :: post ∧ mx < v ∧
        (∀ p ∈ m, p.2 ≤ v) ∧ ∀ p ∈ pre, p.2 < v := by
  induction m with
  | nil => intro mx cur h; simp at h
  | cons p rest ih =>
    intro mx cur h
    by_cases hp : mx < p.2
    · rw [dominantAux, if_pos hp]
      by_cases hrest : ∃ q ∈ rest, p.2 < q.2
      · obtain ⟨pre, v, post, heq, hlt, hall, hpre⟩ := ih p.2 p.1 hrest
        refine ⟨p :: pre, v, post, by rw [List.cons_append, ← heq], hp.trans hlt, ?_, ?_⟩
        · intro q hq
          rcases List.mem_cons.mp hq with rfl | hq2
          · exact hlt.le
          · exact hall q hq2
        · intro q hq
          rcases List.mem_cons.mp hq with rfl | hq2
          · exact hlt
          · exact hpre q hq2
      · push_neg at hrest
        rw [dominantAux_of_all_le rest p.2 p.1 hrest]
        refine ⟨[], p.2, rest, by simp, hp, ?_, by simp⟩
        intro q hq
        rcases List.mem_cons.mp hq with rfl | hq2
        · exact le_refl _
        · exact hrest q hq2
    · rw [dominantAux, if_neg hp]
      have hrest : ∃ q ∈ rest, mx < q.2 := by
        obtain ⟨q, hq, hlt⟩ := h
        rcases List.mem_cons.mp hq with rfl | hq2
        · exact absurd hlt hp
        · exact ⟨q, hq2, hlt⟩
      obtain ⟨pre, v, post, heq, hlt, hall, hpre⟩ := ih mx cur hrest
      have hple : p.2 ≤ mx := not_lt.mp hp
      refine ⟨p :: pre, v, post, by rw [List.cons_append, ← heq], hlt, ?_, ?_⟩
      · intro q hq
        rcases List.mem_cons.mp hq with rfl | hq2
        · exact hple.trans hlt.le
        · exact hall q hq2
      · intro q hq
        rcases List.mem_cons.mp hq with rfl | hq2
        · exact lt_of_le_of_lt hple hlt
        · exact hpre q hq2

/-- C5: after an aggregator update whose surviving window is nonempty and
holds only positive-intensity events (as classifier-produced events always
are), `emotionIntensities` maps each type occurring in the window to the
sum of the raw (unweighted) intensities of that type's events and has no
entry for any other type, and `dominantEmotion` is an entry of largest
accumulated value whose strict predecessors in the map's iteration order
(first-occurrence order) are all strictly smaller -- the strictly-greater
comparison gives the earlier-encountered type priority on ties. -/
theorem dominant_is_first_seen_max (s : AudienceMetrics)
    (new : List EmotionData) (now : ℤ)
    (hpos : ∀ e ∈ s.recentEmotions ++ new, 0 < e.intensity)
    (hsurv : ∃ e ∈ s.recentEmotions ++ new, now - e.timestamp < 10000) :
    (∀ t : EmotionType,
      mapGet (updateMetrics s new now).metrics.emotionIntensities t =
        if t ∈ (updateMetrics s new now).recentEmotions.map EmotionData.type then
          some (rawIntensitySum t (updateMetrics s new now).recentEmotions)
        else none) ∧
    ∃ pre v post,
      (updateMetrics s new now).metrics.emotionIntensities =
        pre ++ ((updateMetrics s new now).metrics.dominantEmotion, v) :: post ∧
        (∀ p ∈ (updateMetrics s new now).metrics.emotionIntensities, p.2 ≤ v) ∧
        ∀ p ∈ pre, p.2 < v := by
  simp only [updateMetrics, calculateDominantEmotion]
  constructor
  · intro t
    rw [countsOf_spec]
    by_cases hmem : t ∈ (addToRecentEmotions s new now).map EmotionData.type
    · have hany : (addToRecentEmotions s new now).any (fun e => e.type = t) = true := by
        simp only [List.any_eq_true, decide_eq_true_eq]
        obtain ⟨e, he, het⟩ := List.mem_map.mp hmem
        exact ⟨e, he, het⟩
      rw [if_pos hany, if_pos hmem]
    · have hany : ¬ ((addToRecentEmotions s new now).any (fun e => e.type = t) = true) := by
        simp only [List.any_eq_true, decide_eq_true_eq]
        rintro ⟨e, he, het⟩
        exact hmem (List.mem_map.mpr ⟨e, he, het⟩)
      rw [if_neg hany, if_neg hmem]
  · obtain ⟨e, he, hts⟩ := hsurv
    have hew : e ∈ addToRecentEmotions s new now := by
      simp only [addToRecentEmotions, List.mem_filter]
      refine ⟨he, ?_⟩
      simp only [TREND_WINDOW, decide_eq_true_eq]
      norm_num
      exact hts
    have hraw : 0 < rawIntensitySum e.type (addToRecentEmotions s new now) := by
      have hef : e ∈ (addToRecentEmotions s new now).filter
          (fun x => x.type = e.type) :=
        List.mem_filter.mpr ⟨hew, by simp⟩
      refine List.sum_pos _ ?_ ?_
      · intro a ha
        obtain ⟨x, hx, hxa⟩ := List.mem_map.mp ha
        have hxw : x ∈ s.recentEmotions ++ new :=
          List.mem_of_mem_filter (List.mem_of_mem_filter hx)
        exact hxa ▸ hpos x hxw
      · intro hnil
        exact List.ne_nil_of_mem hef (List.map_eq_nil_iff.mp hnil)
    have hany2 : (addToRecentEmotions s new now).any (fun x => x.type = e.type) = true := by
      simp only [List.any_eq_true, decide_eq_true_eq]
      exact ⟨e, hew, rfl⟩
    have hentry : mapGet (emotionCountsOf (addToRecentEmotions s new now)) e.type =
        some (rawIntensitySum e.type (addToRecentEmotions s new now)) := by
      rw [countsOf_spec, if_pos hany2]
    obtain ⟨pre, v, post, heq, _, hall, hpre⟩ :=
      dominantAux_first_max (emotionCountsOf (addToRecentEmotions s new now)) 0
        s.metrics.dominantEmotion
        ⟨_, mem_of_mapGet_eq_some hentry, hraw⟩
    exact ⟨pre, v, post, heq, hall, hpre⟩

/-- A classifier-style LAUGHTER event (confidence 0.9 > 0.5). -/
def sampleLaughter : EmotionData :=
  { type := .LAUGHTER, intensity := 0.9, timestamp := 0,
    source := .audio, confidence := 0.9 }

theorem dominant_first_seen_max_witness :
    (∀ t : EmotionType,
      mapGet (updateMetrics initAudienceMetrics [sampleLaughter] 0).metrics.emotionIntensities t =
        if t ∈ (updateMetrics initAudienceMetrics [sampleLaughter] 0).recentEmotions.map EmotionData.type then
          some (rawIntensitySum t (updateMetrics initAudienceMetrics [sampleLaughter] 0).recentEmotions)
        else none) ∧
    ∃ pre v post,
      (updateMetrics initAudienceMetrics [sampleLaughter] 0).metrics.emotionIntensities =
        pre ++ ((updateMetrics initAudienceMetrics [sampleLaughter] 0).metrics.dominantEmotion, v) :: post ∧
        (∀ p ∈ (updateMetrics initAudienceMetrics [sampleLaughter] 0).metrics.emotionIntensities, p.2 ≤ v) ∧
        ∀ p ∈ pre, p.2 < v :=
  dominant_is_first_seen_max initAudienceMetrics [sampleLaughter] 0
    (by
      intro e he
      simp only [initAudienceMetrics, List.nil_append, List.mem_singleton] at he
      subst he
      norm_num [sampleLaughter])
    ⟨sampleLaughter, by simp [initAudienceMetrics], by norm_num [sampleLaughter]⟩

/-- C5 counterexample: an update that empties the window (here, 20 seconds
after the only LAUGHTER event) leaves `dominantEmotion` at its stale
previous value LAUGHTER while `emotionIntensities` is empty, so after this
aggregator update `dominantEmotion` is not a type with the largest
accumulated value -- it has no accumulated value at all. -/
theorem dominant_stale_after_empty_update_cex :
    (updateMetrics (updateMetrics initAudienceMetrics [sampleLaughter] 0)
        [] 20000).metrics.dominantEmotion = .LAUGHTER ∧
    (updateMetrics (updateMetrics initAudienceMetrics [sampleLaughter] 0)
        [] 20000).metrics.emotionIntensities = [] ∧
    ¬ ∃ pre v post,
      (updateMetrics (updateMetrics initAudienceMetrics [sampleLaughter] 0)
          [] 20000).metrics.emotionIntensities =
        pre ++ ((updateMetrics (updateMetrics initAudienceMetrics [sampleLaughter] 0)
            [] 20000).metrics.dominantEmotion, v) :: post := by
  have h : updateMetrics (updateMetrics initAudienceMetrics [sampleLaughter] 0)
      [] 20000 =
      { metrics :=
          { overallEngagement := 0
            dominantEmotion := .LAUGHTER
            emotionIntensities := []
            recentTrend := .stable
            audienceSize := 0 }
        recentEmotions := [] } := by
    norm_num [updateMetrics, initAudienceMetrics, addToRecentEmotions,
      calculateEngagement, calculateDominantEmotion, emotionCountsOf,
      dominantAux, mapSet, mapGet, calculateTrend, TREND_WINDOW,
      sampleLaughter, List.filter]
  rw [h]
  refine ⟨rfl, rfl, ?_⟩
  rintro ⟨pre, v, post, heq⟩
  simp at heq
